import Mathlib

/-!
Verification of the NSMBU-Wave-Simulator wave shading model.

The program (main.py) renders an animated wave with a fragment shader.
We embed, over the reals:
  * `Vec3` — a GLSL `vec3` color.
  * `merge` — the shader's `merge` function (lines 39-42).
  * `Uniforms` — the shader's uniform block (lines 25-36).
  * `shaderHeight` / `colorAt` / `fragMain` — the shader's `main`
    (lines 44-66): the wave-height formula and the band selection.
  * `WaveConfig` with `reset` (lines 70-89).
  * `uniformsOf` / `shade` — the uniform wiring of `RenderWidget.paintGL`
    (lines 149-162), composing the configuration and the two phase
    offsets into the shader inputs.
  * `updateWaves` / `offsetsAfter` — the animation tick
    (`RenderWidget.updateWaves`, lines 106-109) and its iteration from the
    initial offsets `(0, 0)` (lines 98-99).
  * `NumField` / `ColorField` with getters and setters — the dynamic
    `setattr` edits of `SettingsWidget.changeValue` / `changeColor`
    (lines 237-243) over the closed field tables (lines 193-209).
-/

/-- A GLSL `vec3` used as an RGB color. -/
structure Vec3 where
  r : ℝ
  g : ℝ
  b : ℝ

/-- Componentwise sum, as GLSL `a + b` on `vec3`. -/
def Vec3.add (a c : Vec3) : Vec3 :=
  ⟨a.r + c.r, a.g + c.g, a.b + c.b⟩

/-- Componentwise difference, as GLSL `b - a` on `vec3`. -/
def Vec3.sub (a c : Vec3) : Vec3 :=
  ⟨a.r - c.r, a.g - c.g, a.b - c.b⟩

/-- Componentwise scaling, as GLSL `diff * v` on `vec3` and `float`. -/
def Vec3.smul (a : Vec3) (v : ℝ) : Vec3 :=
  ⟨a.r * v, a.g * v, a.b * v⟩

/-- The shader's `merge` (main.py lines 39-42):
`vec3 diff = b - a; return a + diff * v;`. -/
def merge (a c : Vec3) (v : ℝ) : Vec3 :=
  Vec3.add a (Vec3.smul (Vec3.sub c a) v)

/-- The fragment shader's uniform block (main.py lines 25-36). -/
structure Uniforms where
  baseHeight : ℝ
  waveHeight1 : ℝ
  waveHeight2 : ℝ
  waveWidth1 : ℝ
  waveWidth2 : ℝ
  waveOffset1 : ℝ
  waveOffset2 : ℝ
  borderWidth : ℝ
  borderGradient : ℝ
  backgroundColor : Vec3
  waveColor : Vec3
  borderColor : Vec3

/-- The wave height computed by the shader's `main` (main.py lines 48-50):
`height = baseHeight; height += (1 + sin(x*waveWidth1 + waveOffset1)) * waveHeight1;
height += (1 + sin(x*waveWidth2 + waveOffset2)) * waveHeight2;`. -/
noncomputable def shaderHeight (u : Uniforms) (x : ℝ) : ℝ :=
  u.baseHeight
    + (1 + Real.sin (x * u.waveWidth1 + u.waveOffset1)) * u.waveHeight1
    + (1 + Real.sin (x * u.waveWidth2 + u.waveOffset2)) * u.waveHeight2

/-- The band-selection branch of the shader's `main` (main.py lines 51-65),
for a given row `y` and a computed `height`. -/
noncomputable def colorAt (u : Uniforms) (y height : ℝ) : Vec3 :=
  if y < height then
    if y > height - u.borderWidth then
      u.borderColor
    else if y > height - u.borderWidth - u.borderGradient then
      merge u.waveColor u.borderColor
        ((y - (height - u.borderWidth - u.borderGradient)) / u.borderGradient)
    else
      u.waveColor
  else
    u.backgroundColor

/-- The shader's `main` (main.py lines 44-66): compute the height at
column `x`, then select the band color at row `y`. -/
noncomputable def fragMain (u : Uniforms) (x y : ℝ) : Vec3 :=
  colorAt u y (shaderHeight u x)

/-- The guard under which the shader evaluates the blended-band
expression containing the division by `borderGradient`
(main.py lines 51-56): the outer `y < height` holds, the border test
`y > height - borderWidth` fails, and the gradient test
`y > height - borderWidth - borderGradient` holds. -/
def blendReached (u : Uniforms) (y height : ℝ) : Prop :=
  y < height ∧ ¬ (y > height - u.borderWidth) ∧
    y > height - u.borderWidth - u.borderGradient

/-- The configuration record (main.py lines 70-89). -/
structure WaveConfig where
  baseHeight : ℝ
  waveHeight1 : ℝ
  waveHeight2 : ℝ
  waveWidth1 : ℝ
  waveWidth2 : ℝ
  waveSpeed1 : ℝ
  waveSpeed2 : ℝ
  borderWidth : ℝ
  borderGradient : ℝ
  backgroundColor : Vec3
  waveColor : Vec3
  borderColor : Vec3

/-- Method `WaveConfig.reset` (main.py lines 74-89): overwrite every field with
its default. -/
def WaveConfig.reset (_cfg : WaveConfig) : WaveConfig where
  baseHeight := 150
  waveHeight1 := 60
  waveHeight2 := 4
  waveWidth1 := 2.5
  waveWidth2 := 16
  waveSpeed1 := 2.6
  waveSpeed2 := 32
  borderWidth := 5
  borderGradient := 20
  backgroundColor := ⟨0, 0, 0⟩
  waveColor := ⟨1, 0, 0⟩
  borderColor := ⟨1, 0.8, 0⟩

/-- Constructor `WaveConfig.__init__` (main.py lines 71-72): a fresh configuration is
whatever `reset` produces (the pre-`reset` field values are irrelevant,
since `reset` writes every field). -/
def WaveConfig.initial : WaveConfig :=
  WaveConfig.reset ⟨0, 0, 0, 0, 0, 0, 0, 0, 0, ⟨0, 0, 0⟩, ⟨0, 0, 0⟩, ⟨0, 0, 0⟩⟩

/-- The uniform wiring of `RenderWidget.paintGL` (main.py lines 149-162):
`waveWidth1/2` and the two accumulated offsets are scaled by `pi / 360`
before being handed to the shader; everything else is passed through. -/
noncomputable def uniformsOf (cfg : WaveConfig) (off1 off2 : ℝ) : Uniforms where
  baseHeight := cfg.baseHeight
  waveHeight1 := cfg.waveHeight1
  waveHeight2 := cfg.waveHeight2
  waveWidth1 := cfg.waveWidth1 * Real.pi / 360
  waveWidth2 := cfg.waveWidth2 * Real.pi / 360
  waveOffset1 := off1 * Real.pi / 360
  waveOffset2 := off2 * Real.pi / 360
  borderWidth := cfg.borderWidth
  borderGradient := cfg.borderGradient
  backgroundColor := cfg.backgroundColor
  waveColor := cfg.waveColor
  borderColor := cfg.borderColor

/-- The full shading pipeline: configuration and raw phase offsets through
the `paintGL` uniform wiring into the fragment shader. -/
noncomputable def shade (cfg : WaveConfig) (off1 off2 x y : ℝ) : Vec3 :=
  fragMain (uniformsOf cfg off1 off2) x y

/-- The wave height of the full pipeline at column `x`. -/
noncomputable def heightAt (cfg : WaveConfig) (off1 off2 x : ℝ) : ℝ :=
  shaderHeight (uniformsOf cfg off1 off2) x

/-- One animation tick (`RenderWidget.updateWaves`, main.py lines 106-109):
`waveOffset1 += waveSpeed1; waveOffset2 += waveSpeed2`. -/
def updateWaves (cfg : WaveConfig) (s : ℝ × ℝ) : ℝ × ℝ :=
  (s.1 + cfg.waveSpeed1, s.2 + cfg.waveSpeed2)

/-- The offsets after `n` ticks, starting from the initial offsets
`(0, 0)` of `RenderWidget.__init__` (main.py lines 98-99). -/
def offsetsAfter (cfg : WaveConfig) : ℕ → ℝ × ℝ
  | 0 => (0, 0)
  | n + 1 => updateWaves cfg (offsetsAfter cfg n)

/-- The nine numeric field names of the `SettingsWidget.settings` table
(main.py lines 193-203). -/
inductive NumField where
  | baseHeight | waveHeight1 | waveHeight2
  | waveWidth1 | waveWidth2 | waveSpeed1 | waveSpeed2
  | borderWidth | borderGradient
deriving DecidableEq

/-- The three color field names of the `SettingsWidget.colors` table
(main.py lines 205-209). -/
inductive ColorField where
  | backgroundColor | waveColor | borderColor
deriving DecidableEq

/-- Reading `getattr(config, name)` for a numeric field name. -/
def getNum (cfg : WaveConfig) : NumField → ℝ
  | .baseHeight => cfg.baseHeight
  | .waveHeight1 => cfg.waveHeight1
  | .waveHeight2 => cfg.waveHeight2
  | .waveWidth1 => cfg.waveWidth1
  | .waveWidth2 => cfg.waveWidth2
  | .waveSpeed1 => cfg.waveSpeed1
  | .waveSpeed2 => cfg.waveSpeed2
  | .borderWidth => cfg.borderWidth
  | .borderGradient => cfg.borderGradient

/-- Reading `getattr(config, name)` for a color field name. -/
def getColor (cfg : WaveConfig) : ColorField → Vec3
  | .backgroundColor => cfg.backgroundColor
  | .waveColor => cfg.waveColor
  | .borderColor => cfg.borderColor

/-- Method `SettingsWidget.changeValue` (main.py lines 237-239):
`setattr(self.config, name, value)` for a numeric field name. -/
def changeValue (cfg : WaveConfig) : NumField → ℝ → WaveConfig
  | .baseHeight, v => { cfg with baseHeight := v }
  | .waveHeight1, v => { cfg with waveHeight1 := v }
  | .waveHeight2, v => { cfg with waveHeight2 := v }
  | .waveWidth1, v => { cfg with waveWidth1 := v }
  | .waveWidth2, v => { cfg with waveWidth2 := v }
  | .waveSpeed1, v => { cfg with waveSpeed1 := v }
  | .waveSpeed2, v => { cfg with waveSpeed2 := v }
  | .borderWidth, v => { cfg with borderWidth := v }
  | .borderGradient, v => { cfg with borderGradient := v }

/-- Method `SettingsWidget.changeColor` (main.py lines 241-243):
`setattr(self.config, name, color)` for a color field name. -/
def changeColor (cfg : WaveConfig) : ColorField → Vec3 → WaveConfig
  | .backgroundColor, c => { cfg with backgroundColor := c }
  | .waveColor, c => { cfg with waveColor := c }
  | .borderColor, c => { cfg with borderColor := c }

/-- The formula `waveColor + (borderColor - waveColor) * t`, the blend as the
specification writes it, for comparison with the shader's `merge`. -/
def specBlend (wave border : Vec3) (t : ℝ) : Vec3 :=
  Vec3.add wave (Vec3.smul (Vec3.sub border wave) t)

/-- The height formula exactly as the specification states it:
`baseHeight + (1 + sin(x*waveWidth1*pi/360 + phase1*pi/360)) * waveHeight1
            + (1 + sin(x*waveWidth2*pi/360 + phase2*pi/360)) * waveHeight2`. -/
noncomputable def specHeight (cfg : WaveConfig) (phase1 phase2 x : ℝ) : ℝ :=
  cfg.baseHeight
    + (1 + Real.sin (x * cfg.waveWidth1 * Real.pi / 360 + phase1 * Real.pi / 360))
        * cfg.waveHeight1
    + (1 + Real.sin (x * cfg.waveWidth2 * Real.pi / 360 + phase2 * Real.pi / 360))
        * cfg.waveHeight2

/-- All components of a color lie in `[0, 1]`. -/
def inUnit (c : Vec3) : Prop :=
  0 ≤ c.r ∧ c.r ≤ 1 ∧ 0 ≤ c.g ∧ c.g ≤ 1 ∧ 0 ≤ c.b ∧ c.b ≤ 1

/-- The background band of the specification's half-open interval rules:
rows at or above the wave height. -/
def bandBackground (_u : Uniforms) (height y : ℝ) : Prop :=
  height ≤ y

/-- The border band of the specification's half-open interval rules:
`height - borderWidth <= y < height`. -/
def bandBorder (u : Uniforms) (height y : ℝ) : Prop :=
  height - u.borderWidth ≤ y ∧ y < height

/-- The blend band of the specification's half-open interval rules:
`height - borderWidth - borderGradient <= y < height - borderWidth`. -/
def bandBlend (u : Uniforms) (height y : ℝ) : Prop :=
  height - u.borderWidth - u.borderGradient ≤ y ∧ y < height - u.borderWidth

/-- The wave band of the specification's half-open interval rules:
rows below `height - borderWidth - borderGradient`. -/
def bandWave (u : Uniforms) (height y : ℝ) : Prop :=
  y < height - u.borderWidth - u.borderGradient

/-- The default configuration after the settings edit that sets the
border gradient to zero. -/
def gradientZeroConfig : WaveConfig :=
  changeValue WaveConfig.initial .borderGradient 0

/-- Branch evaluation: a row at or above the height gets the background. -/
theorem colorAt_of_height_le (u : Uniforms) {height y : ℝ} (hy : height ≤ y) :
    colorAt u y height = u.backgroundColor := by
  unfold colorAt
  rw [if_neg (not_lt.mpr hy)]

/-- Branch evaluation: a row strictly inside the border test gets the
border color. -/
theorem colorAt_of_border (u : Uniforms) {height y : ℝ}
    (h1 : y < height) (h2 : height - u.borderWidth < y) :
    colorAt u y height = u.borderColor := by
  unfold colorAt
  rw [if_pos h1, if_pos h2]

/-- Branch evaluation: a row failing the border test but passing the
gradient test gets the blended color. -/
theorem colorAt_of_blend (u : Uniforms) {height y : ℝ}
    (h1 : y < height) (h2 : ¬ height - u.borderWidth < y)
    (h3 : height - u.borderWidth - u.borderGradient < y) :
    colorAt u y height =
      merge u.waveColor u.borderColor
        ((y - (height - u.borderWidth - u.borderGradient)) / u.borderGradient) := by
  unfold colorAt
  rw [if_pos h1, if_neg h2, if_pos h3]

/-- Branch evaluation: a row failing both tests gets the wave color. -/
theorem colorAt_of_wave (u : Uniforms) {height y : ℝ}
    (h1 : y < height) (h2 : ¬ height - u.borderWidth < y)
    (h3 : ¬ height - u.borderWidth - u.borderGradient < y) :
    colorAt u y height = u.waveColor := by
  unfold colorAt
  rw [if_pos h1, if_neg h2, if_neg h3]

/-- Componentwise form of `merge`. -/
theorem merge_def (a c : Vec3) (v : ℝ) :
    merge a c v = ⟨a.r + (c.r - a.r) * v, a.g + (c.g - a.g) * v,
      a.b + (c.b - a.b) * v⟩ := rfl

/-- Blending with factor `1` yields the second color. -/
theorem merge_one (a c : Vec3) : merge a c 1 = c := by
  rw [merge_def]
  obtain ⟨cr, cg, cb⟩ := c
  simp

/-- Blending with factor `0` yields the first color. -/
theorem merge_zero (a c : Vec3) : merge a c 0 = a := by
  rw [merge_def]
  obtain ⟨ar, ag, ab⟩ := a
  simp

/-- C5: the shader's `merge` computes exactly the blend formula
`waveColor + (borderColor - waveColor) * t`, and that blend equals the
first color at `t = 0` and the second color at `t = 1`, componentwise in
exact arithmetic. -/
theorem C5_merge_endpoints (a c : Vec3) :
    (∀ t : ℝ, merge a c t = specBlend a c t) ∧
    merge a c 0 = a ∧ merge a c 1 = c ∧
    specBlend a c 0 = a ∧ specBlend a c 1 = c :=
  ⟨fun _ => rfl, merge_zero a c, merge_one a c, merge_zero a c, merge_one a c⟩

/-- C6: after `reset()`, every configuration field reads exactly its
documented default, whatever the prior state was. -/
theorem C6_reset_defaults (cfg : WaveConfig) :
    cfg.reset.baseHeight = 150 ∧
    cfg.reset.waveHeight1 = 60 ∧
    cfg.reset.waveHeight2 = 4 ∧
    cfg.reset.waveWidth1 = 2.5 ∧
    cfg.reset.waveWidth2 = 16 ∧
    cfg.reset.waveSpeed1 = 2.6 ∧
    cfg.reset.waveSpeed2 = 32 ∧
    cfg.reset.borderWidth = 5 ∧
    cfg.reset.borderGradient = 20 ∧
    cfg.reset.backgroundColor = ⟨0, 0, 0⟩ ∧
    cfg.reset.waveColor = ⟨1, 0, 0⟩ ∧
    cfg.reset.borderColor = ⟨1, 0.8, 0⟩ :=
  ⟨rfl, rfl, rfl, rfl, rfl, rfl, rfl, rfl, rfl, rfl, rfl, rfl⟩

/-- C7: starting from offsets `(0, 0)`, after `n` animation ticks with an
unedited configuration the accumulated offsets are exactly
`n * waveSpeed1` and `n * waveSpeed2` — no wrapping, no clamping. -/
theorem C7_offsets_after_ticks (cfg : WaveConfig) (n : ℕ) :
    offsetsAfter cfg n = ((n : ℝ) * cfg.waveSpeed1, (n : ℝ) * cfg.waveSpeed2) := by
  induction n with
  | zero => simp [offsetsAfter]
  | succ k ih =>
      rw [offsetsAfter, ih, updateWaves]
      refine Prod.ext ?_ ?_ <;> push_cast <;> ring

/-- C3: the height computed by the shader with the uniforms that
`paintGL` uploads equals the specification's formula, in which both the
wave-width and the phase degree-to-radian conversions use the factor
`pi / 360`. -/
theorem C3_height_formula (cfg : WaveConfig) (phase1 phase2 x : ℝ) :
    heightAt cfg phase1 phase2 x = specHeight cfg phase1 phase2 x := by
  unfold heightAt shaderHeight uniformsOf specHeight
  ring_nf

/-- C2: with `borderGradient = 0` the guard of the blended band is never
satisfied, so the blended-band expression — the only place the shader
divides by `borderGradient` — is never evaluated; the output is one of
the three flat colors. -/
theorem C2_no_div_by_zero (cfg : WaveConfig) (off1 off2 x y : ℝ)
    (hbg : cfg.borderGradient = 0) :
    ¬ blendReached (uniformsOf cfg off1 off2) y (heightAt cfg off1 off2 x) ∧
    (shade cfg off1 off2 x y = cfg.backgroundColor ∨
     shade cfg off1 off2 x y = cfg.borderColor ∨
     shade cfg off1 off2 x y = cfg.waveColor) := by
  have hgu : (uniformsOf cfg off1 off2).borderGradient = 0 := hbg
  constructor
  · rintro ⟨_h1, h2, h3⟩
    rw [hgu] at h3
    exact h2 (by linarith)
  · have hs : shade cfg off1 off2 x y =
        colorAt (uniformsOf cfg off1 off2) y
          (shaderHeight (uniformsOf cfg off1 off2) x) := rfl
    rw [hs]
    rcases le_or_lt (shaderHeight (uniformsOf cfg off1 off2) x) y with hy | hy
    · exact Or.inl (colorAt_of_height_le _ hy)
    · rcases lt_or_le (shaderHeight (uniformsOf cfg off1 off2) x
          - (uniformsOf cfg off1 off2).borderWidth) y with hb | hb
      · exact Or.inr (Or.inl (colorAt_of_border _ hy hb))
      · refine Or.inr (Or.inr (colorAt_of_wave _ hy (not_lt.mpr hb) ?_))
        rw [hgu]
        intro hcon
        exact absurd (by linarith : shaderHeight (uniformsOf cfg off1 off2) x
          - (uniformsOf cfg off1 off2).borderWidth < y) (not_lt.mpr hb)

/-- C2 witness: the degenerate configuration at a concrete pixel. -/
theorem C2_witness :
    ¬ blendReached (uniformsOf gradientZeroConfig 0 0) 100
        (heightAt gradientZeroConfig 0 0 0) ∧
    (shade gradientZeroConfig 0 0 0 100 = gradientZeroConfig.backgroundColor ∨
     shade gradientZeroConfig 0 0 0 100 = gradientZeroConfig.borderColor ∨
     shade gradientZeroConfig 0 0 0 100 = gradientZeroConfig.waveColor) :=
  C2_no_div_by_zero gradientZeroConfig 0 0 0 100 rfl

/-- At column `x = 0` with both raw offsets `0`, both sine arguments are
`0`, so the height reduces to the sum of the base height and the two
amplitudes. -/
theorem heightAt_zero (cfg : WaveConfig) :
    heightAt cfg 0 0 0 = cfg.baseHeight + cfg.waveHeight1 + cfg.waveHeight2 := by
  unfold heightAt shaderHeight uniformsOf
  norm_num

/-- Under the default configuration the height at column `0` with zero
phases is `150 + 60 + 4 = 214`. -/
theorem initial_heightAt_zero : heightAt WaveConfig.initial 0 0 0 = 214 := by
  rw [heightAt_zero]
  norm_num [WaveConfig.initial, WaveConfig.reset]

/-- C8: under the default configuration with both phases `0`, the height
at column `0` is `214`; row `214` shades to the background, row `210` to
the border color, row `190` to the blend with factor `0.05`, and row
`100` to the wave color. -/
theorem C8_default_example :
    heightAt WaveConfig.initial 0 0 0 = 214 ∧
    shade WaveConfig.initial 0 0 0 214 = WaveConfig.initial.backgroundColor ∧
    shade WaveConfig.initial 0 0 0 210 = WaveConfig.initial.borderColor ∧
    shade WaveConfig.initial 0 0 0 190 =
      merge WaveConfig.initial.waveColor WaveConfig.initial.borderColor 0.05 ∧
    shade WaveConfig.initial 0 0 0 100 = WaveConfig.initial.waveColor := by
  have hH : shaderHeight (uniformsOf WaveConfig.initial 0 0) 0 = 214 :=
    initial_heightAt_zero
  have hbw : (uniformsOf WaveConfig.initial 0 0).borderWidth = 5 := by
    norm_num [uniformsOf, WaveConfig.initial, WaveConfig.reset]
  have hbg : (uniformsOf WaveConfig.initial 0 0).borderGradient = 20 := by
    norm_num [uniformsOf, WaveConfig.initial, WaveConfig.reset]
  refine ⟨initial_heightAt_zero, ?_, ?_, ?_, ?_⟩
  · show colorAt (uniformsOf WaveConfig.initial 0 0) 214
        (shaderHeight (uniformsOf WaveConfig.initial 0 0) 0)
      = WaveConfig.initial.backgroundColor
    rw [hH]
    exact colorAt_of_height_le _ le_rfl
  · show colorAt (uniformsOf WaveConfig.initial 0 0) 210
        (shaderHeight (uniformsOf WaveConfig.initial 0 0) 0)
      = WaveConfig.initial.borderColor
    rw [hH]
    exact colorAt_of_border _ (by norm_num) (by rw [hbw]; norm_num)
  · show colorAt (uniformsOf WaveConfig.initial 0 0) 190
        (shaderHeight (uniformsOf WaveConfig.initial 0 0) 0)
      = merge WaveConfig.initial.waveColor WaveConfig.initial.borderColor 0.05
    rw [hH, colorAt_of_blend _ (by norm_num) (by rw [hbw]; norm_num)
      (by rw [hbw, hbg]; norm_num), hbw, hbg]
    norm_num
    rfl
  · show colorAt (uniformsOf WaveConfig.initial 0 0) 100
        (shaderHeight (uniformsOf WaveConfig.initial 0 0) 0)
      = WaveConfig.initial.waveColor
    rw [hH]
    exact colorAt_of_wave _ (by norm_num) (by rw [hbw]; norm_num)
      (by rw [hbw, hbg]; norm_num)

/-- In the degenerate configuration the border gradient reads `0`. -/
theorem gradientZero_borderGradient : gradientZeroConfig.borderGradient = 0 := rfl

/-- In the degenerate configuration the border width keeps its default. -/
theorem gradientZero_borderWidth : gradientZeroConfig.borderWidth = 5 := rfl

/-- In the degenerate configuration the wave color keeps its default. -/
theorem gradientZero_waveColor : gradientZeroConfig.waveColor = ⟨1, 0, 0⟩ := rfl

/-- In the degenerate configuration the border color keeps its default. -/
theorem gradientZero_borderColor : gradientZeroConfig.borderColor = ⟨1, 0.8, 0⟩ := rfl

/-- Uniform projection: the border width uploaded for the degenerate
configuration. -/
theorem gradientZero_ubw :
    (uniformsOf gradientZeroConfig 0 0).borderWidth = 5 := rfl

/-- Uniform projection: the border gradient uploaded for the degenerate
configuration. -/
theorem gradientZero_ubg :
    (uniformsOf gradientZeroConfig 0 0).borderGradient = 0 := rfl

/-- The degenerate configuration still has height `214` at column `0`. -/
theorem gradientZero_height : heightAt gradientZeroConfig 0 0 0 = 214 := by
  rw [heightAt_zero]
  norm_num [gradientZeroConfig, changeValue, WaveConfig.initial, WaveConfig.reset]

/-- The same height fact phrased on the shader side. -/
theorem gradientZero_sheight :
    shaderHeight (uniformsOf gradientZeroConfig 0 0) 0 = 214 := gradientZero_height

/-- At the exact boundary row `height - borderWidth = 209`, the
degenerate configuration shades to the wave color. -/
theorem gradientZero_shade_boundary :
    shade gradientZeroConfig 0 0 0 209 = gradientZeroConfig.waveColor := by
  show colorAt (uniformsOf gradientZeroConfig 0 0) 209
      (shaderHeight (uniformsOf gradientZeroConfig 0 0) 0)
    = gradientZeroConfig.waveColor
  rw [gradientZero_sheight]
  exact colorAt_of_wave _ (by norm_num)
    (by rw [gradientZero_ubw]; norm_num)
    (by rw [gradientZero_ubw, gradientZero_ubg]; norm_num)

/-- C1 counterexample: in the default configuration edited to
`borderGradient = 0` (border width `5 > 0`), at column `0` with zero
phases the height is `214`, and the row `height - borderWidth = 209`
shades to the wave color `(1, 0, 0)`, not to the border color
`(1, 0.8, 0)` — the claim's universal statement is false. -/
theorem C1_counterexample :
    ¬ (∀ (cfg : WaveConfig) (off1 off2 x : ℝ),
        cfg.borderGradient = 0 → 0 < cfg.borderWidth →
        shade cfg off1 off2 x (heightAt cfg off1 off2 x - cfg.borderWidth)
          = cfg.borderColor) := by
  intro hclaim
  have h := hclaim gradientZeroConfig 0 0 0 gradientZero_borderGradient
    (by rw [gradientZero_borderWidth]; norm_num)
  rw [gradientZero_height, gradientZero_borderWidth] at h
  have h209 : (214 : ℝ) - 5 = 209 := by norm_num
  rw [h209, gradientZero_shade_boundary, gradientZero_waveColor,
    gradientZero_borderColor] at h
  have := (Vec3.mk.injEq 1 0 0 1 0.8 0).mp h
  norm_num at this

/-- C1 (amended): with `borderGradient = 0` and `borderWidth > 0` there
is no division by zero and no blended band — every output is one of the
three flat colors — and rows strictly between `height - borderWidth` and
`height` shade to the border color; but the boundary row exactly at
`y = height - borderWidth` shades to the wave color, not the border
color. -/
theorem C1_amended (cfg : WaveConfig) (off1 off2 x : ℝ)
    (hbg : cfg.borderGradient = 0) (hbw : 0 < cfg.borderWidth) :
    shade cfg off1 off2 x (heightAt cfg off1 off2 x - cfg.borderWidth)
      = cfg.waveColor ∧
    (∀ y, heightAt cfg off1 off2 x - cfg.borderWidth < y →
      y < heightAt cfg off1 off2 x →
      shade cfg off1 off2 x y = cfg.borderColor) ∧
    (∀ y, shade cfg off1 off2 x y = cfg.backgroundColor ∨
      shade cfg off1 off2 x y = cfg.borderColor ∨
      shade cfg off1 off2 x y = cfg.waveColor) := by
  have hgu : (uniformsOf cfg off1 off2).borderGradient = 0 := hbg
  have hwu : (uniformsOf cfg off1 off2).borderWidth = cfg.borderWidth := rfl
  refine ⟨?_, ?_, ?_⟩
  · show colorAt (uniformsOf cfg off1 off2)
        (heightAt cfg off1 off2 x - cfg.borderWidth)
        (shaderHeight (uniformsOf cfg off1 off2) x) = cfg.waveColor
    have hh : heightAt cfg off1 off2 x
        = shaderHeight (uniformsOf cfg off1 off2) x := rfl
    rw [hh]
    exact colorAt_of_wave _ (by linarith)
      (by rw [hwu]; exact lt_irrefl _)
      (by rw [hwu, hgu]; simp)
  · intro y h1 h2
    show colorAt (uniformsOf cfg off1 off2) y
        (shaderHeight (uniformsOf cfg off1 off2) x) = cfg.borderColor
    exact colorAt_of_border _ h2 h1
  · intro y
    have hs : shade cfg off1 off2 x y =
        colorAt (uniformsOf cfg off1 off2) y
          (shaderHeight (uniformsOf cfg off1 off2) x) := rfl
    rw [hs]
    rcases le_or_lt (shaderHeight (uniformsOf cfg off1 off2) x) y with hy | hy
    · exact Or.inl (colorAt_of_height_le _ hy)
    · rcases lt_or_le (shaderHeight (uniformsOf cfg off1 off2) x
          - (uniformsOf cfg off1 off2).borderWidth) y with hb | hb
      · exact Or.inr (Or.inl (colorAt_of_border _ hy hb))
      · refine Or.inr (Or.inr (colorAt_of_wave _ hy (not_lt.mpr hb) ?_))
        rw [hgu]
        intro hcon
        exact absurd (by linarith : shaderHeight (uniformsOf cfg off1 off2) x
          - (uniformsOf cfg off1 off2).borderWidth < y) (not_lt.mpr hb)

/-- C1 witness: the amended statement instantiated at the degenerate
default configuration. -/
theorem C1_witness :
    shade gradientZeroConfig 0 0 0
        (heightAt gradientZeroConfig 0 0 0 - gradientZeroConfig.borderWidth)
      = gradientZeroConfig.waveColor :=
  (C1_amended gradientZeroConfig 0 0 0 rfl
    (by rw [gradientZero_borderWidth]; norm_num)).1

/-- C4 counterexample: take the degenerate uniforms (border width `5`,
border gradient `0`), height `214` and row `209`. The row lies in the
claimed border band `[209, 214)`, yet the shader outputs the wave color
`(1, 0, 0)`, not the border color `(1, 0.8, 0)`: the claimed half-open
band rules are false as stated. -/
theorem C4_counterexample :
    ¬ (∀ (u : Uniforms) (h y : ℝ),
        0 ≤ u.borderWidth → 0 ≤ u.borderGradient →
        ((bandBackground u h y ∨ bandBorder u h y ∨ bandBlend u h y ∨
            bandWave u h y) ∧
          ¬ (bandBackground u h y ∧ bandBorder u h y) ∧
          ¬ (bandBackground u h y ∧ bandBlend u h y) ∧
          ¬ (bandBackground u h y ∧ bandWave u h y) ∧
          ¬ (bandBorder u h y ∧ bandBlend u h y) ∧
          ¬ (bandBorder u h y ∧ bandWave u h y) ∧
          ¬ (bandBlend u h y ∧ bandWave u h y)) ∧
        (bandBackground u h y → colorAt u y h = u.backgroundColor) ∧
        (bandBorder u h y → colorAt u y h = u.borderColor) ∧
        (bandBlend u h y → colorAt u y h =
          merge u.waveColor u.borderColor
            ((y - (h - u.borderWidth - u.borderGradient)) / u.borderGradient)) ∧
        (bandWave u h y → colorAt u y h = u.waveColor)) := by
  intro hclaim
  have hinst := hclaim (uniformsOf gradientZeroConfig 0 0) 214 209
    (by rw [gradientZero_ubw]; norm_num)
    (by rw [gradientZero_ubg])
  have hborder : bandBorder (uniformsOf gradientZeroConfig 0 0) 214 209 :=
    ⟨by rw [gradientZero_ubw]; norm_num, by norm_num⟩
  have h := hinst.2.2.1 hborder
  have hwave : colorAt (uniformsOf gradientZeroConfig 0 0) 209 214
      = (uniformsOf gradientZeroConfig 0 0).waveColor :=
    colorAt_of_wave _ (by norm_num)
      (by rw [gradientZero_ubw]; norm_num)
      (by rw [gradientZero_ubw, gradientZero_ubg]; norm_num)
  rw [hwave] at h
  have h2 : (⟨1, 0, 0⟩ : Vec3) = ⟨1, 0.8, 0⟩ := h
  have := (Vec3.mk.injEq 1 0 0 1 0.8 0).mp h2
  norm_num at this

/-- C4 (amended): for `borderWidth >= 0` and `borderGradient >= 0` the
four half-open bands partition the rows (exactly one applies), the
background, blend and wave bands shade as claimed, and the border band
shades to the border color except at its exact lower boundary
`y = height - borderWidth` when `borderGradient = 0`, where the shader
outputs the wave color instead. -/
theorem C4_amended (u : Uniforms) (h y : ℝ)
    (hbw : 0 ≤ u.borderWidth) (hbg : 0 ≤ u.borderGradient) :
    ((bandBackground u h y ∨ bandBorder u h y ∨ bandBlend u h y ∨
        bandWave u h y) ∧
      ¬ (bandBackground u h y ∧ bandBorder u h y) ∧
      ¬ (bandBackground u h y ∧ bandBlend u h y) ∧
      ¬ (bandBackground u h y ∧ bandWave u h y) ∧
      ¬ (bandBorder u h y ∧ bandBlend u h y) ∧
      ¬ (bandBorder u h y ∧ bandWave u h y) ∧
      ¬ (bandBlend u h y ∧ bandWave u h y)) ∧
    (bandBackground u h y → colorAt u y h = u.backgroundColor) ∧
    (bandBorder u h y → 0 < u.borderGradient ∨ h - u.borderWidth < y →
      colorAt u y h = u.borderColor) ∧
    (bandBorder u h y → u.borderGradient = 0 → y = h - u.borderWidth →
      colorAt u y h = u.waveColor) ∧
    (bandBlend u h y → colorAt u y h =
      merge u.waveColor u.borderColor
        ((y - (h - u.borderWidth - u.borderGradient)) / u.borderGradient)) ∧
    (bandWave u h y → colorAt u y h = u.waveColor) := by
  unfold bandBackground bandBorder bandBlend bandWave
  refine ⟨⟨?_, ?_, ?_, ?_, ?_, ?_, ?_⟩, ?_, ?_, ?_, ?_, ?_⟩
  · rcases le_or_lt h y with h1 | h1
    · exact Or.inl h1
    rcases le_or_lt (h - u.borderWidth) y with h2 | h2
    · exact Or.inr (Or.inl ⟨h2, h1⟩)
    rcases le_or_lt (h - u.borderWidth - u.borderGradient) y with h3 | h3
    · exact Or.inr (Or.inr (Or.inl ⟨h3, h2⟩))
    · exact Or.inr (Or.inr (Or.inr h3))
  · rintro ⟨h1, _, h2⟩
    linarith
  · rintro ⟨h1, _, h2⟩
    linarith
  · rintro ⟨h1, h2⟩
    linarith
  · rintro ⟨⟨h1, _⟩, _, h2⟩
    linarith
  · rintro ⟨⟨h1, _⟩, h2⟩
    linarith
  · rintro ⟨⟨h1, _⟩, h2⟩
    linarith
  · exact fun h1 => colorAt_of_height_le u h1
  · rintro ⟨h1, h2⟩ hcase
    rcases lt_or_eq_of_le h1 with hlt | heq
    · exact colorAt_of_border u h2 hlt
    · rcases hcase with hpos | hlt
      · have hne : u.borderGradient ≠ 0 := ne_of_gt hpos
        rw [colorAt_of_blend u h2 (by rw [heq]; exact lt_irrefl _)
          (by rw [← heq]; linarith)]
        have hnum : y - (h - u.borderWidth - u.borderGradient)
            = u.borderGradient := by
          rw [← heq]; ring
        rw [hnum, div_self hne, merge_one]
      · exact colorAt_of_border u h2 hlt
  · rintro ⟨h1, h2⟩ hzero heq
    exact colorAt_of_wave u h2
      (by rw [heq]; exact lt_irrefl _)
      (by rw [heq, hzero]; simp)
  · rintro ⟨h1, h2⟩
    have hy : y < h := by linarith
    rcases lt_or_eq_of_le h1 with hlt | heq
    · exact colorAt_of_blend u hy (not_lt.mpr (le_of_lt h2)) hlt
    · rw [colorAt_of_wave u hy (not_lt.mpr (le_of_lt h2))
        (by rw [← heq]; exact lt_irrefl _)]
      have hnum : y - (h - u.borderWidth - u.borderGradient) = 0 := by
        rw [← heq]; ring
      rw [hnum, zero_div, merge_zero]
  · intro h1
    have hy : y < h := by linarith
    exact colorAt_of_wave u hy (by intro hcon; linarith)
      (not_lt.mpr (le_of_lt h1))

/-- C4 witness: the amended band rules instantiated at the default
configuration's uniforms, height `214`, row `210` (border band). -/
theorem C4_witness :
    colorAt (uniformsOf WaveConfig.initial 0 0) 210 214
      = (uniformsOf WaveConfig.initial 0 0).borderColor := by
  have hbw : (uniformsOf WaveConfig.initial 0 0).borderWidth = 5 := rfl
  have hbg : (uniformsOf WaveConfig.initial 0 0).borderGradient = 20 := rfl
  exact (C4_amended (uniformsOf WaveConfig.initial 0 0) 214 210
      (by rw [hbw]; norm_num)
      (by rw [hbg]; norm_num)).2.2.1
    ⟨by rw [hbw]; norm_num, by norm_num⟩
    (Or.inr (by rw [hbw]; norm_num))

/-- C9: a settings edit writes exactly the named configuration field and
leaves every other field — numeric or color — unchanged. -/
theorem C9_edit_frame (cfg : WaveConfig) :
    (∀ (f : NumField) (v : ℝ),
      getNum (changeValue cfg f v) f = v ∧
      (∀ g : NumField, g ≠ f →
        getNum (changeValue cfg f v) g = getNum cfg g) ∧
      (∀ c : ColorField, getColor (changeValue cfg f v) c = getColor cfg c)) ∧
    (∀ (f : ColorField) (col : Vec3),
      getColor (changeColor cfg f col) f = col ∧
      (∀ g : ColorField, g ≠ f →
        getColor (changeColor cfg f col) g = getColor cfg g) ∧
      (∀ n : NumField, getNum (changeColor cfg f col) n = getNum cfg n)) := by
  constructor
  · intro f v
    refine ⟨?_, ?_, ?_⟩
    · cases f <;> rfl
    · intro g hg
      cases f <;> cases g <;> first
        | exact absurd rfl hg
        | rfl
    · intro c
      cases f <;> cases c <;> rfl
  · intro f col
    refine ⟨?_, ?_, ?_⟩
    · cases f <;> rfl
    · intro g hg
      cases f <;> cases g <;> first
        | exact absurd rfl hg
        | rfl
    · intro n
      cases f <;> cases n <;> rfl

/-- C9 witness: editing the base height to `7` writes it and leaves the
first wave height unchanged. -/
theorem C9_witness :
    getNum (changeValue WaveConfig.initial .baseHeight 7) .waveHeight1
      = getNum WaveConfig.initial .waveHeight1 ∧
    getNum (changeValue WaveConfig.initial .baseHeight 7) .baseHeight = 7 :=
  ⟨((C9_edit_frame WaveConfig.initial).1 .baseHeight 7).2.1 .waveHeight1
      (by decide),
    ((C9_edit_frame WaveConfig.initial).1 .baseHeight 7).1⟩

/-- A convex blend of two values of `[0, 1]` stays in `[0, 1]`. -/
theorem blend_unit {a c t : ℝ} (ha0 : 0 ≤ a) (ha1 : a ≤ 1) (hc0 : 0 ≤ c)
    (hc1 : c ≤ 1) (ht0 : 0 ≤ t) (ht1 : t ≤ 1) :
    0 ≤ a + (c - a) * t ∧ a + (c - a) * t ≤ 1 := by
  constructor <;> nlinarith

/-- C10: every shader output is the background color, the border color,
the wave color, or a blend of the wave and border colors with factor in
`(0, 1]`; hence if the three configured colors lie in the unit cube,
every output does. -/
theorem C10_output_form (cfg : WaveConfig) (off1 off2 x y : ℝ) :
    (shade cfg off1 off2 x y = cfg.backgroundColor ∨
     shade cfg off1 off2 x y = cfg.borderColor ∨
     shade cfg off1 off2 x y = cfg.waveColor ∨
     ∃ t : ℝ, 0 < t ∧ t ≤ 1 ∧
       shade cfg off1 off2 x y = merge cfg.waveColor cfg.borderColor t) ∧
    (inUnit cfg.backgroundColor → inUnit cfg.waveColor →
     inUnit cfg.borderColor → inUnit (shade cfg off1 off2 x y)) := by
  have hs : shade cfg off1 off2 x y =
      colorAt (uniformsOf cfg off1 off2) y
        (shaderHeight (uniformsOf cfg off1 off2) x) := rfl
  have hform : shade cfg off1 off2 x y = cfg.backgroundColor ∨
      shade cfg off1 off2 x y = cfg.borderColor ∨
      shade cfg off1 off2 x y = cfg.waveColor ∨
      ∃ t : ℝ, 0 < t ∧ t ≤ 1 ∧
        shade cfg off1 off2 x y = merge cfg.waveColor cfg.borderColor t := by
    rw [hs]
    rcases le_or_lt (shaderHeight (uniformsOf cfg off1 off2) x) y with hy | hy
    · exact Or.inl (colorAt_of_height_le _ hy)
    rcases lt_or_le (shaderHeight (uniformsOf cfg off1 off2) x
        - (uniformsOf cfg off1 off2).borderWidth) y with hb | hb
    · exact Or.inr (Or.inl (colorAt_of_border _ hy hb))
    rcases lt_or_le (shaderHeight (uniformsOf cfg off1 off2) x
        - (uniformsOf cfg off1 off2).borderWidth
        - (uniformsOf cfg off1 off2).borderGradient) y with hg2 | hg2
    · have hbgpos : 0 < (uniformsOf cfg off1 off2).borderGradient := by
        linarith
      exact Or.inr (Or.inr (Or.inr ⟨_, div_pos (by linarith) hbgpos,
        (div_le_one hbgpos).mpr (by linarith),
        colorAt_of_blend _ hy (not_lt.mpr hb) hg2⟩))
    · exact Or.inr (Or.inr (Or.inl
        (colorAt_of_wave _ hy (not_lt.mpr hb) (not_lt.mpr hg2))))
  refine ⟨hform, ?_⟩
  intro hbgc hwc hbc
  obtain ⟨hw1, hw2, hw3, hw4, hw5, hw6⟩ := hwc
  obtain ⟨hb1, hb2, hb3, hb4, hb5, hb6⟩ := hbc
  rcases hform with h | h | h | ⟨t, ht0, ht1, h⟩ <;> rw [h]
  · exact hbgc
  · exact ⟨hb1, hb2, hb3, hb4, hb5, hb6⟩
  · exact ⟨hw1, hw2, hw3, hw4, hw5, hw6⟩
  · rw [merge_def]
    have h1 := blend_unit hw1 hw2 hb1 hb2 (le_of_lt ht0) ht1
    have h2 := blend_unit hw3 hw4 hb3 hb4 (le_of_lt ht0) ht1
    have h3 := blend_unit hw5 hw6 hb5 hb6 (le_of_lt ht0) ht1
    exact ⟨h1.1, h1.2, h2.1, h2.2, h3.1, h3.2⟩

/-- C10 witness: under the default configuration — whose colors lie in
the unit cube — the output at pixel `(0, 100)` lies in the unit cube. -/
theorem C10_witness : inUnit (shade WaveConfig.initial 0 0 0 100) :=
  (C10_output_form WaveConfig.initial 0 0 0 100).2
    (by norm_num [inUnit, WaveConfig.initial, WaveConfig.reset])
    (by norm_num [inUnit, WaveConfig.initial, WaveConfig.reset])
    (by norm_num [inUnit, WaveConfig.initial, WaveConfig.reset])
